import Mathlib

/-!
A verification development for the sandbox execution engine
(`internal/engine/docker.go`): the pipeline controller (`Exec`), the step
executor (`execStep`), the argument builder (`buildArgs`, `dockerRunArgs`,
`dockerExecArgs`), the file stager (`writeFiles`, `copyFiles`) and the
outcome-classification logic (`exec`).

The Go code is embedded shallowly.  External collaborators (the process
invoker `Program`, the file helpers `fileio.WriteFile` / `fileio.CopyFiles`,
and `os.MkdirTemp`) are modelled as a deterministic oracle (`Env`): each of
its fields says what the outside world answers to one kind of call.  All
observable side effects (file writes, glob copies, process invocations,
container kills) are recorded in an event trace, so that ordering and
"was this ever invoked" properties can be stated.
-/

namespace Codapi

/-- Modelled from the spec: `Files` (engine package, not in src/) is an
ordered mapping from file name to textual content; iteration order is
preserved.  We embed it as an association list.  The mapping invariant
(distinct names, at most one empty name) is carried as a hypothesis where
a theorem needs it. -/
abbrev Files := List (String × String)

/-- A raw error returned by the process invoker, as the engine observes it:
its rendered message (`err.Error()` in Go) and whether it unwraps to an
`exec.ExitError` (`errors.As(err, &exitErr)`). -/
structure RawErr where
  msg : String
  isExitError : Bool
deriving DecidableEq, Repr

/-- Modelled from the spec: the typed errors the engine produces
(`ErrTimeout`, `NewExecutionError` and the two `fmt.Errorf` shapes of
`docker.go` live partly outside src/).  Constructors:
* `timeout` — the stable `ErrTimeout` value;
* `raw e` — an invoker error returned unmodified;
* `wrappedExit combined e` — `fmt.Errorf("%s (%s)", combined, err)`:
  the combined output with the exit detail attached;
* `executionError stage msg` — `NewExecutionError(stage, err)`, an
  infrastructure-class failure wrapped with a stage label;
* `versionError box version` — the configuration-mismatch error
  `fmt.Errorf("box %s does not support version %s", ...)`. -/
inductive GoErr where
  | timeout
  | raw (e : RawErr)
  | wrappedExit (combined : String) (e : RawErr)
  | executionError (stage : String) (msg : String)
  | versionError (box : String) (version : String)
deriving DecidableEq, Repr

/-- Code-level (content) failures per the §7 taxonomy: the sandboxed
program's own nonzero exit, possibly wrapped with its combined output —
as opposed to timeouts and infrastructure errors. -/
def GoErr.isCodeLevel : GoErr → Bool
  | .raw _ => true
  | .wrappedExit _ _ => true
  | _ => false

/-- The outcome of one step or of the whole pipeline (`engine.Execution`). -/
structure Execution where
  id : String
  ok : Bool
  stdout : String
  stderr : String
  err : Option GoErr
deriving DecidableEq, Repr

/-- Modelled from the spec: `Fail` (engine package, not in src/) builds a
failed `Execution` carrying the identifier and the typed error; the output
fields carry nothing. -/
def Fail (id : String) (err : GoErr) : Execution :=
  { id := id, ok := false, stdout := "", stderr := "", err := some err }

/-- Box configuration (`config.Box`): resource envelope and isolation
policy of a sandbox. -/
structure Box where
  image : String
  runtime : String
  cpu : Int
  memory : Int
  network : String
  nproc : Int
  writable : Bool
  storage : String
  volume : String
  tmpfs : List String
  capAdd : List String
  capDrop : List String
  ulimit : List String
  versions : List String
  files : List String
deriving DecidableEq, Repr

/-- Step configuration (`config.Step`). -/
structure Step where
  box : String
  action : String
  version : String
  timeout : Int
  nOutput : Int
  user : String
  stdin : Bool
  command : List String
deriving DecidableEq, Repr

/-- Command configuration (`config.Command`): entry-point filename, an
optional setup step, the run steps (the first is mandatory for a valid
configuration), an optional cleanup step. -/
structure Command where
  entry : String
  before : Option Step
  steps : List Step
  after : Option Step
deriving DecidableEq, Repr

/-- The slice of `config.Config` the engine reads: the box table.  A valid
configuration defines every box a step names, so the lookup is total here
(the Go `nil`-pointer case for an unknown box cannot arise). -/
structure Config where
  boxes : String → Box

/-- The Docker engine for one command (`engine.Docker`). -/
structure Docker where
  cfg : Config
  cmd : Command

def actionRun : String := "run"
def actionExec : String := "exec"

/-- One inbound unit of work (`engine.Request`): identifier (doubles as the
container name), optional requested version (empty means the box default),
and the named source files. -/
structure Request where
  id : String
  version : String
  files : Files
deriving DecidableEq, Repr

/-- One call to the process invoker (`Program.Run` / `Program.RunStdin`):
`stdin = some s` models `RunStdin` fed the stream `s`, `none` models `Run`. -/
structure InvokeCall where
  timeout : Int
  nOutput : Int
  stdin : Option String
  id : String
  prog : String
  args : List String
deriving DecidableEq, Repr

/-- An observable side effect of the engine. -/
inductive Event where
  | writeFile (path : String) (content : String)
  | copyPattern (pattern : String) (dir : String)
  | invoke (call : InvokeCall)
  | kill (id : String)
deriving DecidableEq, Repr

def Event.isWrite : Event → Bool
  | .writeFile _ _ => true
  | _ => false

def Event.isCopy : Event → Bool
  | .copyPattern _ _ => true
  | _ => false

def Event.isKill : Event → Bool
  | .kill _ => true
  | _ => false

/-- The path of a write event, if it is one. -/
def Event.path? : Event → Option String
  | .writeFile p _ => some p
  | _ => none

/-- Modelled from the spec: the external collaborators as a deterministic
oracle.  `mkTemp` is `os.MkdirTemp`; `writeRes path content` the outcome of
`fileio.WriteFile(path, content, 0444)`; `copyRes pattern dir` the outcome
of `fileio.CopyFiles(pattern, dir)`; `invokeRes` the (stdout, stderr, error)
triple of the process invoker.  `none` means success; `some msg` an error
with message `msg`. -/
structure Env where
  mkTemp : Except String String
  writeRes : String → String → Option String
  copyRes : String → String → Option String
  invokeRes : InvokeCall → String × String × Option RawErr

/-- Model of `filepath.Join(dir, name)` for the simple relative names the engine
stages (no cleaning is needed for them). -/
def joinPath (dir name : String) : String :=
  dir ++ "/" ++ name

/-- Scan left to right for the first occurrence of `pat` and splice in
`repl` there. -/
def replaceFirstAux (pat repl : List Char) : List Char → List Char
  | [] => []
  | c :: rest =>
    if pat.isPrefixOf (c :: rest) then repl ++ (c :: rest).drop pat.length
    else c :: replaceFirstAux pat repl rest

/-- Model of `strings.Replace(s, pattern, repl, 1)`: replace the first occurrence
(the engine only ever replaces the non-empty tokens `":name"` and `"%s"`). -/
def replaceFirst (s pattern repl : String) : String :=
  ⟨replaceFirstAux pattern.data repl.data s.data⟩

/-- Model of `fmt.Sprintf(volumeFormat, dir)` for the single-`%s` volume format
strings box configurations use. -/
def formatVolume (fmt dir : String) : String :=
  replaceFirst fmt "%s" dir

/-- Embeds `expandVars`: replaces the first `:name` in each command argument with
the container name. -/
def expandVars (command : List String) (name : String) : List String :=
  command.map (fun cmd => replaceFirst cmd ":name" name)

/-- Embeds `filesReader`: concatenates the file contents, in iteration order, into
the stream piped to the sandboxed process's stdin. -/
def filesReader (files : Files) : String :=
  files.foldl (fun acc f => acc ++ f.2) ""

/-- Embeds `validateVersion`: if the step pins no version and the request asks for
one, it must be among the box's supported versions. -/
def validateVersion (box : Box) (step : Step) (req : Request) : Option GoErr :=
  if step.version = "" ∧ req.version ≠ "" ∧ req.version ∉ box.versions then
    some (GoErr.versionError step.box req.version)
  else
    none

/-- The image reference appended last by `dockerRunArgs`: step-pinned
version, else request-supplied version, else the box's untagged image. -/
def imageRef (box : Box) (step : Step) (req : Request) : String :=
  if step.version ≠ "" then box.image ++ ":" ++ step.version
  else if req.version ≠ "" then box.image ++ ":" ++ req.version
  else box.image

/-- Embeds `dockerRunArgs`: the argument list for a fresh-container `docker run`. -/
def dockerRunArgs (box : Box) (step : Step) (req : Request) (dir : String) :
    List String :=
  let args := [actionRun, "--rm",
    "--name", req.id,
    "--runtime", box.runtime,
    "--cpus", toString box.cpu,
    "--memory", toString box.memory ++ "m",
    "--network", box.network,
    "--pids-limit", toString box.nproc,
    "--user", step.user]
  let args := if ¬ box.writable then args ++ ["--read-only"] else args
  let args := if step.stdin then args ++ ["--interactive"] else args
  let args := if box.storage ≠ "" then
    args ++ ["--storage-opt", "size=" ++ box.storage] else args
  let args := if dir ≠ "" then
    args ++ ["--volume", formatVolume box.volume dir] else args
  let args := args ++ box.tmpfs.flatMap (fun fs => ["--tmpfs", fs])
  let args := args ++ box.capAdd.flatMap (fun c => ["--cap-add", c])
  let args := args ++ box.capDrop.flatMap (fun c => ["--cap-drop", c])
  let args := args ++ box.ulimit.flatMap (fun lim => ["--ulimit", lim])
  args ++ [imageRef box step req]

/-- Embeds `dockerExecArgs`: the argument list for `docker exec` into the
long-lived container named after the box. -/
def dockerExecArgs (step : Step) : List String :=
  [actionExec, "--interactive", "--user", step.user, step.box]

/-- Embeds `buildArgs`: pick the action variant and append the expanded command
template.  An unknown action falls back to the harmless `docker version`. -/
def Docker.buildArgs (_e : Docker) (box : Box) (step : Step) (req : Request)
    (dir : String) : List String :=
  let args :=
    if step.action = actionRun then dockerRunArgs box step req dir
    else if step.action = actionExec then dockerExecArgs step
    else ["version"]
  args ++ expandVars step.command req.id

/-- The single invoker call `exec` makes: `RunStdin` fed the concatenated
files when the step selects stdin delivery, `Run` otherwise.  The timeout
and output ceiling come from the step (`NewProgram`). -/
def invocation (e : Docker) (box : Box) (step : Step) (req : Request)
    (dir : String) (files : Files) : InvokeCall :=
  { timeout := step.timeout
    nOutput := step.nOutput
    stdin := if step.stdin then some (filesReader files) else none
    id := req.id
    prog := "docker"
    args := e.buildArgs box step req dir }

/-- The raw outcome of `exec`: captured output, the classified error (if
any), and the recorded side effects. -/
structure ExecResult where
  stdout : String
  stderr : String
  err : Option GoErr
  events : List Event
deriving DecidableEq, Repr

/-- Embeds `dockerKill`: runs `docker kill <id>` under its own short deadline;
we record the invocation as a kill event. -/
def dockerKill (id : String) : Event :=
  Event.kill id

/-- Embeds `exec`: invoke the process and classify the raw outcome.
* no error: success, output as captured;
* message `"signal: killed"`: the timeout kill — classify as `ErrTimeout`
  and, for a `run` action only, fire the detached `docker kill <id>`;
* an `exec.ExitError` otherwise: code-level failure — move the combined
  `stdout ++ stderr` into stderr, clear stdout, and attach the exit detail
  to the message when the combined output is non-empty;
* anything else: infrastructure failure wrapped with the
  `"execute code"` stage label. -/
def Docker.exec (e : Docker) (env : Env) (box : Box) (step : Step)
    (req : Request) (dir : String) (files : Files) : ExecResult :=
  let call := invocation e box step req dir files
  let (stdout, stderr, rawErr) := env.invokeRes call
  match rawErr with
  | none => ⟨stdout, stderr, none, [Event.invoke call]⟩
  | some err =>
    if err.msg = "signal: killed" then
      ⟨stdout, stderr, some GoErr.timeout,
        Event.invoke call ::
          (if step.action = actionRun then [dockerKill req.id] else [])⟩
    else if err.isExitError then
      let combined := stdout ++ stderr
      ⟨"", combined,
        some (if combined ≠ "" then GoErr.wrappedExit combined err
              else GoErr.raw err),
        [Event.invoke call]⟩
    else
      ⟨stdout, stderr, some (GoErr.executionError "execute code" err.msg),
        [Event.invoke call]⟩

/-- The loop of `copyFiles`: copy each glob pattern in order, stopping at
the first error.  Each attempt is recorded. -/
def copyFilesLoop (env : Env) (patterns : List String) (dir : String) :
    Option String × List Event :=
  match patterns with
  | [] => (none, [])
  | p :: ps =>
    match env.copyRes p dir with
    | some msg => (some msg, [Event.copyPattern p dir])
    | none =>
      let r := copyFilesLoop env ps dir
      (r.1, Event.copyPattern p dir :: r.2)

/-- Embeds `copyFiles`: copy box template files into the temporary directory.
(The Go early return for a box with no file patterns coincides with the
loop doing nothing.) -/
def copyFiles (env : Env) (box : Box) (dir : String) :
    Option String × List Event :=
  copyFilesLoop env box.files dir

/-- The name a request file is staged under: the sentinel empty name is
replaced by the command's entry-point filename. -/
def effName (e : Docker) (name : String) : String :=
  if name = "" then e.cmd.entry else name

/-- The loop of `writeFiles` (`Files.Range` with early stop): write each
file in iteration order, stopping at the first error.  Each attempt is
recorded. -/
def writeFilesLoop (e : Docker) (env : Env) (dir : String) :
    Files → Option String × List Event
  | [] => (none, [])
  | f :: rest =>
    let path := joinPath dir (effName e f.1)
    match env.writeRes path f.2 with
    | some msg => (some msg, [Event.writeFile path f.2])
    | none =>
      let r := writeFilesLoop e env dir rest
      (r.1, Event.writeFile path f.2 :: r.2)

/-- Embeds `writeFiles`: write the request files into the temporary directory. -/
def Docker.writeFiles (e : Docker) (env : Env) (dir : String)
    (files : Files) : Option String × List Event :=
  writeFilesLoop e env dir files

/-- Embeds `execStep`: validate the version, stage box files, invoke and classify.
A version mismatch or staging failure aborts before any process runs. -/
def Docker.execStep (e : Docker) (env : Env) (step : Step) (req : Request)
    (dir : String) (files : Files) : Execution × List Event :=
  let box := e.cfg.boxes step.box
  match validateVersion box step req with
  | some err => (Fail req.id err, [])
  | none =>
    let c := copyFiles env box dir
    match c.1 with
    | some msg =>
      (Fail req.id (GoErr.executionError "copy files to temp dir" msg), c.2)
    | none =>
      let r := e.exec env box step req dir files
      match r.err with
      | some err => (Fail req.id err, c.2 ++ r.events)
      | none =>
        ({ id := req.id, ok := true, stdout := r.stdout, stderr := r.stderr,
           err := none }, c.2 ++ r.events)

/-- The loop over the optional later run steps: each operates on the
previous step's results with no source files, stopping at the first
failure. -/
def runRest (e : Docker) (env : Env) (req : Request) (dir : String)
    (out : Execution) : List Step → Execution × List Event
  | [] => (out, [])
  | s :: rest =>
    let r := e.execStep env s req dir []
    if r.1.ok then
      let r2 := runRest e env req dir r.1 rest
      (r2.1, r.2 ++ r2.2)
    else
      (r.1, r.2)

/-- The run-step phase of `Exec`: the mandatory first step runs with the
request files, the rest with none.  An empty step list is an invalid
configuration: it models the out-of-range panic of `e.cmd.Steps[0]` and is
unreachable for valid configurations (the spec requires a non-empty
sequence). -/
def runSteps (e : Docker) (env : Env) (req : Request) (dir : String) :
    Execution × List Event :=
  match e.cmd.steps with
  | [] => (Fail req.id (GoErr.executionError "steps" "index out of range"), [])
  | first :: rest =>
    let r := e.execStep env first req dir req.files
    if r.1.ok then
      let r2 := runRest e env req dir r.1 rest
      (r2.1, r.2 ++ r2.2)
    else
      (r.1, r.2)

/-- The cleanup phase of `Exec`: if a cleanup step is configured it always
runs; its failure becomes the result only when the run phase succeeded. -/
def withCleanup (e : Docker) (env : Env) (req : Request) (dir : String)
    (out : Execution) : Execution × List Event :=
  match e.cmd.after with
  | none => (out, [])
  | some aft =>
    let r := e.execStep env aft req dir []
    (if out.ok ∧ ¬ r.1.ok then r.1 else out, r.2)

/-- The request-file staging phase of `Exec`: files are written only when
the command declares an entry-point filename. -/
def writePhase (e : Docker) (env : Env) (dir : String) (req : Request) :
    Option String × List Event :=
  if e.cmd.entry ≠ "" then e.writeFiles env dir req.files else (none, [])

/-- The setup phase of `Exec`: the optional `before` step; `some out`
reports its failure. -/
def beforePhase (e : Docker) (env : Env) (req : Request) (dir : String) :
    Option Execution × List Event :=
  match e.cmd.before with
  | none => (none, [])
  | some b =>
    let r := e.execStep env b req dir []
    (if r.1.ok then none else some r.1, r.2)

/-- The body of `Exec` once the temporary directory exists. -/
def Docker.execInDir (e : Docker) (env : Env) (req : Request)
    (dir : String) : Execution × List Event :=
  match writePhase e env dir req with
  | (some msg, evs) =>
    (Fail req.id (GoErr.executionError "write files to temp dir" msg), evs)
  | (none, evs0) =>
    match beforePhase e env req dir with
    | (some failOut, evs1) => (failOut, evs0 ++ evs1)
    | (none, evs1) =>
      let r := runSteps e env req dir
      let c := withCleanup e env req dir r.1
      (c.1, evs0 ++ evs1 ++ r.2 ++ c.2)

/-- Embeds `Exec`: the pipeline controller.  (The unconditional removal of the
temporary directory is a deferred filesystem effect with no bearing on the
claims below and is not recorded.) -/
def Docker.Exec (e : Docker) (env : Env) (req : Request) :
    Execution × List Event :=
  match env.mkTemp with
  | Except.error msg =>
    (Fail req.id (GoErr.executionError "create temp dir" msg), [])
  | Except.ok dir => e.execInDir env req dir

/-- Whether every event satisfying `p` occurs strictly before every event
satisfying `q` (for the mutually exclusive event classes used here). -/
def allBefore (p q : Event → Bool) : List Event → Bool
  | [] => true
  | ev :: rest =>
    (if q ev then rest.all (fun x => ! p x) else true) && allBefore p q rest

/-- The paths of the write events of a trace, in order. -/
def pathsOf (evs : List Event) : List String :=
  evs.filterMap Event.path?

/-! ### Fixed concrete configuration used by the witnesses -/

/-- A concrete box for witnesses. -/
def boxW : Box :=
  { image := "codapi/python", runtime := "runc", cpu := 1, memory := 64,
    network := "none", nproc := 64, writable := false, storage := "",
    volume := "%s:/sandbox:ro", tmpfs := [], capAdd := [], capDrop := ["all"],
    ulimit := [], versions := ["1.0", "2.0"], files := [] }

/-- A concrete fresh-container `run` step for witnesses. -/
def stepRunW : Step :=
  { box := "python", action := "run", version := "", timeout := 5,
    nOutput := 4096, user := "sandbox", stdin := false,
    command := ["python", "main.py"] }

/-- A concrete `exec`-action step for witnesses. -/
def stepExecW : Step :=
  { box := "python", action := "exec", version := "", timeout := 5,
    nOutput := 4096, user := "sandbox", stdin := true,
    command := ["sh", "-c", "python main.py"] }

/-- A concrete engine for witnesses: one mandatory run step, no setup, no
cleanup. -/
def engW : Docker :=
  { cfg := ⟨fun _ => boxW⟩,
    cmd := { entry := "main.py", before := none, steps := [stepRunW],
             after := none } }

/-- A concrete request for witnesses. -/
def reqW : Request :=
  { id := "req42", version := "", files := [("", "print(1)")] }

/-- An oracle whose filesystem calls succeed and whose invoker reports the
timeout kill (`"signal: killed"`). -/
def envKilled : Env :=
  { mkTemp := Except.ok "/tmp/d"
    writeRes := fun _ _ => none
    copyRes := fun _ _ => none
    invokeRes := fun _ => ("", "", some ⟨"signal: killed", false⟩) }

/-- An oracle whose invoker reports a nonzero exit (`exit status 1`) that
wrote `"boom"` to its error stream. -/
def envBoom : Env :=
  { mkTemp := Except.ok "/tmp/d"
    writeRes := fun _ _ => none
    copyRes := fun _ _ => none
    invokeRes := fun _ => ("", "boom", some ⟨"exit status 1", true⟩) }

/-- An oracle whose invoker reports a nonzero exit with no captured
output at all. -/
def envSilentExit : Env :=
  { mkTemp := Except.ok "/tmp/d"
    writeRes := fun _ _ => none
    copyRes := fun _ _ => none
    invokeRes := fun _ => ("", "", some ⟨"exit status 1", true⟩) }

/-- An oracle where everything succeeds. -/
def envOk : Env :=
  { mkTemp := Except.ok "/tmp/d"
    writeRes := fun _ _ => none
    copyRes := fun _ _ => none
    invokeRes := fun _ => ("ok", "", none) }

/-! ### Claim theorems -/

/-- Claim C1: when the process invoker returns the timeout-kill error
(`"signal: killed"`), `exec` classifies the step's outcome as the stable
`ErrTimeout` value, and exactly one best-effort `docker kill <id>` with the
execution identifier is issued if and only if the step's action is a
fresh-container `run`; for any other action (in particular `exec`) no kill
is issued. -/
theorem exec_timeout_classification (e : Docker) (env : Env) (box : Box)
    (step : Step) (req : Request) (dir : String) (files : Files)
    (out errOut : String) (re : RawErr)
    (hres : env.invokeRes (invocation e box step req dir files) =
      (out, errOut, some re))
    (hmsg : re.msg = "signal: killed") :
    (e.exec env box step req dir files).err = some GoErr.timeout
    ∧ ((e.exec env box step req dir files).events.filter Event.isKill =
        if step.action = actionRun then [Event.kill req.id] else []) := by
  by_cases hact : step.action = actionRun <;>
    simp [Docker.exec, hres, hmsg, hact, dockerKill, Event.isKill]

/-- Witness for C1: at a concrete run-action step the kill is issued once
with the identifier; the classification is the timeout value. -/
theorem exec_timeout_classification_witness :
    (engW.exec envKilled boxW stepRunW reqW "/tmp/d" []).err =
      some GoErr.timeout
    ∧ ((engW.exec envKilled boxW stepRunW reqW "/tmp/d" []).events.filter
          Event.isKill =
        if stepRunW.action = actionRun then [Event.kill reqW.id] else []) :=
  exec_timeout_classification engW envKilled boxW stepRunW reqW "/tmp/d" []
    "" "" ⟨"signal: killed", false⟩ rfl rfl

/-- Claim C3: when the invoked process exits nonzero without a timeout,
`exec` places the combined `stdout ++ stderr` in stderr, clears stdout, and
attaches the exit detail to the error message (when the combined output is
non-empty); the outcome is a code-level failure, not an infrastructure
error. -/
theorem exec_exit_failure_framing (e : Docker) (env : Env) (box : Box)
    (step : Step) (req : Request) (dir : String) (files : Files)
    (out errOut : String) (re : RawErr)
    (hres : env.invokeRes (invocation e box step req dir files) =
      (out, errOut, some re))
    (hmsg : re.msg ≠ "signal: killed")
    (hexit : re.isExitError = true) :
    (e.exec env box step req dir files).stdout = ""
    ∧ (e.exec env box step req dir files).stderr = out ++ errOut
    ∧ (e.exec env box step req dir files).err =
        some (if out ++ errOut ≠ "" then GoErr.wrappedExit (out ++ errOut) re
              else GoErr.raw re)
    ∧ (if out ++ errOut ≠ "" then GoErr.wrappedExit (out ++ errOut) re
       else GoErr.raw re).isCodeLevel = true := by
  refine ⟨?_, ?_, ?_, ?_⟩
  · simp [Docker.exec, hres, hmsg, hexit]
  · simp [Docker.exec, hres, hmsg, hexit]
  · simp [Docker.exec, hres, hmsg, hexit]
  · by_cases hc : out ++ errOut = "" <;> simp [hc, GoErr.isCodeLevel]

/-- Witness for C3: a process exiting with status 1 that wrote `"boom"` to
its error stream yields a failure whose combined output is `"boom"` and
whose stdout is empty, carrying the wrapped exit detail. -/
theorem exec_exit_failure_framing_witness :
    (engW.exec envBoom boxW stepRunW reqW "/tmp/d" []).stdout = ""
    ∧ (engW.exec envBoom boxW stepRunW reqW "/tmp/d" []).stderr = "" ++ "boom"
    ∧ (engW.exec envBoom boxW stepRunW reqW "/tmp/d" []).err =
        some (if "" ++ "boom" ≠ "" then
                GoErr.wrappedExit ("" ++ "boom") ⟨"exit status 1", true⟩
              else GoErr.raw ⟨"exit status 1", true⟩)
    ∧ (if "" ++ "boom" ≠ "" then
         GoErr.wrappedExit ("" ++ "boom") ⟨"exit status 1", true⟩
       else GoErr.raw ⟨"exit status 1", true⟩).isCodeLevel = true :=
  exec_exit_failure_framing engW envBoom boxW stepRunW reqW "/tmp/d" []
    "" "boom" ⟨"exit status 1", true⟩ rfl (by decide) rfl

/-- Claim C10: for a nonzero exit classified as a code-level failure, the
underlying exit error is returned unmodified exactly when the combined
captured output is empty; it is wrapped with the combined output only when
that output is non-empty. -/
theorem exec_exit_error_unwrapped_when_empty (e : Docker) (env : Env)
    (box : Box) (step : Step) (req : Request) (dir : String) (files : Files)
    (out errOut : String) (re : RawErr)
    (hres : env.invokeRes (invocation e box step req dir files) =
      (out, errOut, some re))
    (hmsg : re.msg ≠ "signal: killed")
    (hexit : re.isExitError = true) :
    (out ++ errOut = "" →
      (e.exec env box step req dir files).err = some (GoErr.raw re))
    ∧ (out ++ errOut ≠ "" →
      (e.exec env box step req dir files).err =
        some (GoErr.wrappedExit (out ++ errOut) re)) := by
  constructor <;> intro hc <;> simp [Docker.exec, hres, hmsg, hexit, hc]

/-- Witness for C10: a silent `exit status 1` (no captured output) comes
back as the bare exit error, with no combined-output text prepended. -/
theorem exec_exit_error_unwrapped_when_empty_witness :
    (engW.exec envSilentExit boxW stepRunW reqW "/tmp/d" []).err =
      some (GoErr.raw ⟨"exit status 1", true⟩) :=
  (exec_exit_error_unwrapped_when_empty engW envSilentExit boxW stepRunW
    reqW "/tmp/d" [] "" "" ⟨"exit status 1", true⟩ rfl (by decide) rfl).1 rfl

/-- Claim C4: if the configured setup step fails, `Exec` returns the setup
step's failure immediately: the trace ends with the setup step's events, so
neither any run step nor the cleanup step is invoked. -/
theorem exec_setup_short_circuit (e : Docker) (env : Env) (req : Request)
    (dir : String) (b : Step)
    (hT : env.mkTemp = Except.ok dir)
    (hW : (writePhase e env dir req).1 = none)
    (hB : e.cmd.before = some b)
    (hfail : (e.execStep env b req dir []).1.ok = false) :
    e.Exec env req =
      ((e.execStep env b req dir []).1,
        (writePhase e env dir req).2 ++ (e.execStep env b req dir []).2) := by
  unfold Docker.Exec
  rw [hT]
  unfold Docker.execInDir
  rcases hw : writePhase e env dir req with ⟨w1, w2⟩
  have hw1 : w1 = none := by rw [hw] at hW; exact hW
  subst hw1
  have hbp : beforePhase e env req dir =
      (some (e.execStep env b req dir []).1, (e.execStep env b req dir []).2) := by
    simp [beforePhase, hB, hfail]
  simp [hw, hbp]

/-- An oracle for the C4 witness: the setup step's invocation fails to even
start (an infrastructure error), everything else succeeds. -/
def envBeforeFail : Env :=
  { mkTemp := Except.ok "/tmp/d"
    writeRes := fun _ _ => none
    copyRes := fun _ _ => none
    invokeRes := fun _ => ("", "", some ⟨"exec: docker not found", false⟩) }

/-- A concrete engine for the C4 witness: a setup step, one run step and a
cleanup step are configured. -/
def engBeforeW : Docker :=
  { cfg := ⟨fun _ => boxW⟩,
    cmd := { entry := "main.py", before := some stepExecW,
             steps := [stepRunW], after := some stepExecW } }

/-- Witness for C4: with a failing setup step the pipeline returns the
setup failure and the trace stops at the setup step's events. -/
theorem exec_setup_short_circuit_witness :
    engBeforeW.Exec envBeforeFail reqW =
      ((engBeforeW.execStep envBeforeFail stepExecW reqW "/tmp/d" []).1,
        (writePhase engBeforeW envBeforeFail "/tmp/d" reqW).2 ++
          (engBeforeW.execStep envBeforeFail stepExecW reqW "/tmp/d" []).2) :=
  exec_setup_short_circuit engBeforeW envBeforeFail reqW "/tmp/d" stepExecW
    rfl (by decide) rfl (by decide)

/-- Claim C2: with a configured cleanup step, once the pipeline reaches the
run phase: if the run phase succeeded and the cleanup step fails, `Exec`
returns the cleanup failure; if the run phase failed, `Exec` returns the
run phase's failure regardless of cleanup's outcome; in both cases the
cleanup step's events are still appended to the trace (it is executed). -/
theorem exec_cleanup_precedence (e : Docker) (env : Env) (req : Request)
    (dir : String) (aft : Step)
    (hA : e.cmd.after = some aft)
    (hT : env.mkTemp = Except.ok dir)
    (hW : (writePhase e env dir req).1 = none)
    (hB : (beforePhase e env req dir).1 = none) :
    ((runSteps e env req dir).1.ok = true →
      (e.execStep env aft req dir []).1.ok = false →
      (e.Exec env req).1 = (e.execStep env aft req dir []).1)
    ∧ ((runSteps e env req dir).1.ok = false →
      (e.Exec env req).1 = (runSteps e env req dir).1)
    ∧ (e.Exec env req).2 =
        (writePhase e env dir req).2 ++ (beforePhase e env req dir).2
          ++ (runSteps e env req dir).2 ++ (e.execStep env aft req dir []).2 := by
  unfold Docker.Exec
  rw [hT]
  unfold Docker.execInDir
  rcases hw : writePhase e env dir req with ⟨w1, w2⟩
  have hw1 : w1 = none := by rw [hw] at hW; exact hW
  subst hw1
  rcases hb : beforePhase e env req dir with ⟨b1, evs1⟩
  have hb1 : b1 = none := by rw [hb] at hB; exact hB
  subst hb1
  have hwc : withCleanup e env req dir (runSteps e env req dir).1 =
      (if (runSteps e env req dir).1.ok ∧ ¬ (e.execStep env aft req dir []).1.ok
        then (e.execStep env aft req dir []).1
        else (runSteps e env req dir).1,
       (e.execStep env aft req dir []).2) := by
    simp [withCleanup, hA]
  refine ⟨?_, ?_, ?_⟩
  · intro hrun haft
    simp [hw, hb, hwc, hrun, haft]
  · intro hrun
    simp [hw, hb, hwc, hrun]
  · simp [hw, hb, hwc]

/-- An oracle for the C2 witness: every run-step invocation succeeds, while
the cleanup step's invocation (recognizable by its `docker exec` argument
list) exits nonzero. -/
def envCleanupFail : Env :=
  { mkTemp := Except.ok "/tmp/d"
    writeRes := fun _ _ => none
    copyRes := fun _ _ => none
    invokeRes := fun call =>
      if call.args.take 1 = [actionExec] then
        ("", "cleanup broke", some ⟨"exit status 1", true⟩)
      else ("ok", "", none) }

/-- A concrete engine for the C2 witness: one run step and a cleanup step. -/
def engAfterW : Docker :=
  { cfg := ⟨fun _ => boxW⟩,
    cmd := { entry := "main.py", before := none, steps := [stepRunW],
             after := some stepExecW } }

/-- Witness for C2: with the run step succeeding and the cleanup step
failing, `Exec` returns the cleanup step's failure and its trace ends with
the cleanup step's events. -/
theorem exec_cleanup_precedence_witness :
    (engAfterW.Exec envCleanupFail reqW).1 =
      (engAfterW.execStep envCleanupFail stepExecW reqW "/tmp/d" []).1
    ∧ (engAfterW.Exec envCleanupFail reqW).2 =
        (writePhase engAfterW envCleanupFail "/tmp/d" reqW).2
          ++ (beforePhase engAfterW envCleanupFail reqW "/tmp/d").2
          ++ (runSteps engAfterW envCleanupFail reqW "/tmp/d").2
          ++ (engAfterW.execStep envCleanupFail stepExecW reqW "/tmp/d" []).2 :=
  ⟨(exec_cleanup_precedence engAfterW envCleanupFail reqW "/tmp/d" stepExecW
      rfl rfl (by decide) (by decide)).1 (by decide) (by decide),
   (exec_cleanup_precedence engAfterW envCleanupFail reqW "/tmp/d" stepExecW
      rfl rfl (by decide) (by decide)).2.2⟩

/-- The invoker call always appears in `exec`'s trace: every branch of the
classification records the single invocation it classifies. -/
theorem invoke_mem_exec_events (e : Docker) (env : Env) (box : Box)
    (step : Step) (req : Request) (dir : String) (files : Files) :
    Event.invoke (invocation e box step req dir files)
      ∈ (e.exec env box step req dir files).events := by
  rcases h : env.invokeRes (invocation e box step req dir files) with ⟨o, er, raw⟩
  rcases raw with _ | re
  · simp [Docker.exec, h]
  · by_cases h1 : re.msg = "signal: killed"
    · simp [Docker.exec, h, h1]
    · by_cases h2 : re.isExitError <;> simp [Docker.exec, h, h1, h2]

/-- When the version check passes and box-file staging succeeds, the trace
of `execStep` is the staging events followed by `exec`'s events. -/
theorem execStep_trace_split (e : Docker) (env : Env) (step : Step)
    (req : Request) (dir : String) (files : Files)
    (hv : validateVersion (e.cfg.boxes step.box) step req = none)
    (hc : (copyFiles env (e.cfg.boxes step.box) dir).1 = none) :
    (e.execStep env step req dir files).2 =
      (copyFiles env (e.cfg.boxes step.box) dir).2 ++
        (e.exec env (e.cfg.boxes step.box) step req dir files).events := by
  unfold Docker.execStep
  dsimp only
  rw [hv]
  rcases hcp : copyFiles env (e.cfg.boxes step.box) dir with ⟨c1, c2⟩
  have hc1 : c1 = none := by rw [hcp] at hc; exact hc
  subst hc1
  cases hr : (e.exec env (e.cfg.boxes step.box) step req dir files).err <;>
    simp [hcp, hr]

/-- Claim C5: for a step that pins no version — a request version absent
from the box's supported set makes `execStep` fail with the
configuration-mismatch error before any event (in particular any process
invocation) is produced; a supported request version proceeds to the
invocation; an empty request version proceeds and a `run` argument list
ends with the box's untagged default image reference. -/
theorem execStep_version_gating (e : Docker) (env : Env) (step : Step)
    (req : Request) (dir : String) (files : Files)
    (hpin : step.version = "") :
    (req.version ≠ "" → req.version ∉ (e.cfg.boxes step.box).versions →
      e.execStep env step req dir files =
        (Fail req.id (GoErr.versionError step.box req.version), []))
    ∧ (req.version ∈ (e.cfg.boxes step.box).versions →
       (copyFiles env (e.cfg.boxes step.box) dir).1 = none →
      Event.invoke (invocation e (e.cfg.boxes step.box) step req dir files)
        ∈ (e.execStep env step req dir files).2)
    ∧ (req.version = "" →
       (copyFiles env (e.cfg.boxes step.box) dir).1 = none →
      (Event.invoke (invocation e (e.cfg.boxes step.box) step req dir files)
        ∈ (e.execStep env step req dir files).2
       ∧ (dockerRunArgs (e.cfg.boxes step.box) step req dir).getLast? =
          some (e.cfg.boxes step.box).image)) := by
  refine ⟨?_, ?_, ?_⟩
  · intro h1 h2
    have hv : validateVersion (e.cfg.boxes step.box) step req =
        some (GoErr.versionError step.box req.version) := by
      simp [validateVersion, hpin, h1, h2]
    unfold Docker.execStep
    dsimp only
    rw [hv]
  · intro h1 h2
    rw [execStep_trace_split e env step req dir files
      (by simp [validateVersion, h1]) h2]
    exact List.mem_append_right _
      (invoke_mem_exec_events e env (e.cfg.boxes step.box) step req dir files)
  · intro h1 h2
    refine ⟨?_, ?_⟩
    · rw [execStep_trace_split e env step req dir files
        (by simp [validateVersion, h1]) h2]
      exact List.mem_append_right _
        (invoke_mem_exec_events e env (e.cfg.boxes step.box) step req dir files)
    · simp only [dockerRunArgs]
      rw [List.getLast?_concat]
      simp [imageRef, hpin, h1]

/-- A request asking for an unsupported version. -/
def reqBadW : Request :=
  { id := "req42", version := "3.0", files := [("", "print(1)")] }

/-- A request asking for a supported version. -/
def reqV2W : Request :=
  { id := "req42", version := "2.0", files := [("", "print(1)")] }

/-- Witness for C5: against a box supporting `{"1.0", "2.0"}` and an
unpinned step, version `"3.0"` fails with the configuration error and no
events, `"2.0"` reaches the invocation, and the empty version reaches the
invocation with the untagged default image last in the `run` arguments. -/
theorem execStep_version_gating_witness :
    engW.execStep envOk stepRunW reqBadW "/tmp/d" [] =
      (Fail reqBadW.id (GoErr.versionError stepRunW.box reqBadW.version), [])
    ∧ Event.invoke (invocation engW boxW stepRunW reqV2W "/tmp/d" [])
        ∈ (engW.execStep envOk stepRunW reqV2W "/tmp/d" []).2
    ∧ (Event.invoke (invocation engW boxW stepRunW reqW "/tmp/d" [])
        ∈ (engW.execStep envOk stepRunW reqW "/tmp/d" []).2
       ∧ (dockerRunArgs boxW stepRunW reqW "/tmp/d").getLast? =
          some boxW.image) :=
  ⟨(execStep_version_gating engW envOk stepRunW reqBadW "/tmp/d" [] rfl).1
      (by decide) (by decide),
   (execStep_version_gating engW envOk stepRunW reqV2W "/tmp/d" [] rfl).2.1
      (by decide) (by decide),
   (execStep_version_gating engW envOk stepRunW reqW "/tmp/d" [] rfl).2.2
      rfl (by decide)⟩

set_option maxRecDepth 8000 in
/-- Claim C6: in a `run` argument list the image reference appended last is
selected by priority (step-pinned version, else request version, else the
untagged box image), and `--read-only` is present if and only if the box is
not writable.  The hypotheses say that no configured field value is itself
the literal `"--read-only"`, which holds for any sensible configuration. -/
theorem dockerRunArgs_image_and_readonly (box : Box) (step : Step)
    (req : Request) (dir : String)
    (hflag : "--read-only" ∉ ([req.id, box.runtime, toString box.cpu,
        toString box.memory ++ "m", box.network, toString box.nproc,
        step.user, "size=" ++ box.storage, formatVolume box.volume dir,
        imageRef box step req] : List String))
    (htmp : "--read-only" ∉ box.tmpfs) (hca : "--read-only" ∉ box.capAdd)
    (hcd : "--read-only" ∉ box.capDrop) (hul : "--read-only" ∉ box.ulimit) :
    ((step.version ≠ "" → (dockerRunArgs box step req dir).getLast? =
        some (box.image ++ ":" ++ step.version))
     ∧ (step.version = "" → req.version ≠ "" →
        (dockerRunArgs box step req dir).getLast? =
          some (box.image ++ ":" ++ req.version))
     ∧ (step.version = "" → req.version = "" →
        (dockerRunArgs box step req dir).getLast? = some box.image))
    ∧ ("--read-only" ∈ dockerRunArgs box step req dir ↔ ¬ box.writable) := by
  simp only [List.mem_cons, List.not_mem_nil, or_false] at hflag
  push_neg at hflag
  obtain ⟨hf1, hf2, hf3, hf4, hf5, hf6, hf7, hf8, hf9, hf10⟩ := hflag
  constructor
  · refine ⟨?_, ?_, ?_⟩
    · intro h1
      simp only [dockerRunArgs]
      rw [List.getLast?_concat]
      simp [imageRef, h1]
    · intro h1 h2
      simp only [dockerRunArgs]
      rw [List.getLast?_concat]
      simp [imageRef, h1, h2]
    · intro h1 h2
      simp only [dockerRunArgs]
      rw [List.getLast?_concat]
      simp [imageRef, h1, h2]
  · have htmp2 : ¬ ∃ a ∈ box.tmpfs, "--read-only" = a := by
      simpa [eq_comm] using htmp
    have hca2 : ¬ ∃ a ∈ box.capAdd, "--read-only" = a := by
      simpa [eq_comm] using hca
    have hcd2 : ¬ ∃ a ∈ box.capDrop, "--read-only" = a := by
      simpa [eq_comm] using hcd
    have hul2 : ¬ ∃ a ∈ box.ulimit, "--read-only" = a := by
      simpa [eq_comm] using hul
    by_cases hw : box.writable <;>
      simp [dockerRunArgs, hw, hf1, hf2, hf3, hf4, hf5, hf6, hf7, hf8, hf9,
        hf10, htmp, hca, hcd, hul, htmp2, hca2, hcd2, hul2,
        List.mem_flatMap] <;>
      split_ifs <;>
      simp [actionRun, hf1, hf2, hf3, hf4, hf5, hf6, hf7, hf8, hf9, hf10]

/-- A step pinning version `"3.12"`. -/
def stepPinW : Step :=
  { box := "python", action := "run", version := "3.12", timeout := 5,
    nOutput := 4096, user := "sandbox", stdin := false,
    command := ["python", "main.py"] }

/-- Witness for C6: for the concrete non-writable box the argument list
contains `--read-only` and ends with the pinned image tag. -/
theorem dockerRunArgs_image_and_readonly_witness :
    (dockerRunArgs boxW stepPinW reqW "/tmp/d").getLast? =
      some (boxW.image ++ ":" ++ stepPinW.version)
    ∧ ("--read-only" ∈ dockerRunArgs boxW stepPinW reqW "/tmp/d" ↔
        ¬ boxW.writable) :=
  ⟨(dockerRunArgs_image_and_readonly boxW stepPinW reqW "/tmp/d" (by decide)
      (by decide) (by decide) (by decide) (by decide)).1.1 (by decide),
   (dockerRunArgs_image_and_readonly boxW stepPinW reqW "/tmp/d" (by decide)
      (by decide) (by decide) (by decide) (by decide)).2⟩

/-- A copy event is not a write event. -/
theorem Event.not_write_of_copy (ev : Event) (h : ev.isCopy = true) :
    ev.isWrite = false := by
  cases ev <;> simp_all [Event.isCopy, Event.isWrite]

/-- A write event is not a copy event. -/
theorem Event.not_copy_of_write (ev : Event) (h : ev.isWrite = true) :
    ev.isCopy = false := by
  cases ev <;> simp_all [Event.isCopy, Event.isWrite]

/-- Every event of the box-file staging loop is a copy event. -/
theorem copyFilesLoop_events_copy (env : Env) (ps : List String)
    (dir : String) :
    ∀ ev ∈ (copyFilesLoop env ps dir).2, ev.isCopy = true := by
  induction ps with
  | nil => simp [copyFilesLoop]
  | cons p ps ih =>
    intro ev hev
    rcases h : env.copyRes p dir with _ | msg
    · simp only [copyFilesLoop, h, List.mem_cons] at hev
      rcases hev with hev | hev
      · simp [hev, Event.isCopy]
      · exact ih ev hev
    · simp only [copyFilesLoop, h, List.mem_singleton] at hev
      simp [hev, Event.isCopy]

/-- Every event of the request-file staging loop is a write event. -/
theorem writeFilesLoop_events_write (e : Docker) (env : Env) (dir : String)
    (files : Files) :
    ∀ ev ∈ (writeFilesLoop e env dir files).2, ev.isWrite = true := by
  induction files with
  | nil => simp [writeFilesLoop]
  | cons f fs ih =>
    intro ev hev
    rcases h : env.writeRes (joinPath dir (effName e f.1)) f.2 with _ | msg
    · simp only [writeFilesLoop, h, List.mem_cons] at hev
      rcases hev with hev | hev
      · simp [hev, Event.isWrite]
      · exact ih ev hev
    · simp only [writeFilesLoop, h, List.mem_singleton] at hev
      simp [hev, Event.isWrite]

/-- The classifier `exec` produces no write events (only the invocation and possibly a
kill). -/
theorem exec_events_not_write (e : Docker) (env : Env) (box : Box)
    (step : Step) (req : Request) (dir : String) (files : Files) :
    ∀ ev ∈ (e.exec env box step req dir files).events,
      ev.isWrite = false := by
  intro ev hev
  rcases h : env.invokeRes (invocation e box step req dir files)
    with ⟨o, er, raw⟩
  rcases raw with _ | re
  · simp [Docker.exec, h] at hev
    simp [hev, Event.isWrite]
  · by_cases h1 : re.msg = "signal: killed"
    · by_cases h2 : step.action = actionRun
      · simp [Docker.exec, h, h1, h2, dockerKill] at hev
        rcases hev with hev | hev <;> simp [hev, Event.isWrite]
      · simp [Docker.exec, h, h1, h2] at hev
        simp [hev, Event.isWrite]
    · by_cases h2 : re.isExitError
      · simp [Docker.exec, h, h1, h2] at hev
        simp [hev, Event.isWrite]
      · simp [Docker.exec, h, h1, h2] at hev
        simp [hev, Event.isWrite]

/-- A step execution produces no write events: its trace is box-file copy
events followed by `exec`'s events. -/
theorem execStep_events_not_write (e : Docker) (env : Env) (step : Step)
    (req : Request) (dir : String) (files : Files) :
    ∀ ev ∈ (e.execStep env step req dir files).2, ev.isWrite = false := by
  intro ev hev
  unfold Docker.execStep at hev
  dsimp only at hev
  rcases hv : validateVersion (e.cfg.boxes step.box) step req with _ | err
  · rw [hv] at hev
    rcases hc : (copyFiles env (e.cfg.boxes step.box) dir).1 with _ | msg
    · rw [hc] at hev
      rcases hr : (e.exec env (e.cfg.boxes step.box) step req dir files).err
        with _ | err2 <;>
        rw [hr] at hev <;>
        dsimp only at hev <;>
        rcases List.mem_append.1 hev with hev2 | hev2
      · exact Event.not_write_of_copy ev
          (copyFilesLoop_events_copy env _ dir ev hev2)
      · exact exec_events_not_write e env _ step req dir files ev hev2
      · exact Event.not_write_of_copy ev
          (copyFilesLoop_events_copy env _ dir ev hev2)
      · exact exec_events_not_write e env _ step req dir files ev hev2
    · rw [hc] at hev
      dsimp only at hev
      exact Event.not_write_of_copy ev
        (copyFilesLoop_events_copy env _ dir ev hev)
  · rw [hv] at hev
    simp at hev

/-- The later-run-step loop produces no write events. -/
theorem runRest_events_not_write (e : Docker) (env : Env) (req : Request)
    (dir : String) (out : Execution) (steps : List Step) :
    ∀ ev ∈ (runRest e env req dir out steps).2, ev.isWrite = false := by
  induction steps generalizing out with
  | nil => simp [runRest]
  | cons s ss ih =>
    intro ev hev
    by_cases h : (e.execStep env s req dir []).1.ok <;>
      simp only [runRest, h, if_true, if_false, ite_true, ite_false] at hev
    · rcases List.mem_append.1 hev with hev2 | hev2
      · exact execStep_events_not_write e env s req dir [] ev hev2
      · exact ih _ ev hev2
    · exact execStep_events_not_write e env s req dir [] ev hev

/-- The run phase produces no write events. -/
theorem runSteps_events_not_write (e : Docker) (env : Env) (req : Request)
    (dir : String) :
    ∀ ev ∈ (runSteps e env req dir).2, ev.isWrite = false := by
  intro ev hev
  unfold runSteps at hev
  rcases hs : e.cmd.steps with _ | ⟨first, rest⟩
  · rw [hs] at hev; simp at hev
  · rw [hs] at hev
    dsimp only at hev
    by_cases h : (e.execStep env first req dir req.files).1.ok <;>
      simp only [h, if_true, if_false, ite_true, ite_false] at hev
    · rcases List.mem_append.1 hev with hev2 | hev2
      · exact execStep_events_not_write e env first req dir req.files ev hev2
      · exact runRest_events_not_write e env req dir _ rest ev hev2
    · exact execStep_events_not_write e env first req dir req.files ev hev

/-- The setup phase produces no write events. -/
theorem beforePhase_events_not_write (e : Docker) (env : Env)
    (req : Request) (dir : String) :
    ∀ ev ∈ (beforePhase e env req dir).2, ev.isWrite = false := by
  intro ev hev
  unfold beforePhase at hev
  rcases hb : e.cmd.before with _ | b
  · rw [hb] at hev; simp at hev
  · rw [hb] at hev
    dsimp only at hev
    exact execStep_events_not_write e env b req dir [] ev hev

/-- The cleanup phase produces no write events. -/
theorem withCleanup_events_not_write (e : Docker) (env : Env)
    (req : Request) (dir : String) (out : Execution) :
    ∀ ev ∈ (withCleanup e env req dir out).2, ev.isWrite = false := by
  intro ev hev
  unfold withCleanup at hev
  rcases ha : e.cmd.after with _ | aft
  · rw [ha] at hev; simp at hev
  · rw [ha] at hev
    dsimp only at hev
    exact execStep_events_not_write e env aft req dir [] ev hev

/-- Every event of the request-staging phase is a write event. -/
theorem writePhase_events_write (e : Docker) (env : Env) (dir : String)
    (req : Request) :
    ∀ ev ∈ (writePhase e env dir req).2, ev.isWrite = true := by
  intro ev hev
  unfold writePhase at hev
  by_cases h : e.cmd.entry ≠ ""
  · rw [if_pos h] at hev
    exact writeFilesLoop_events_write e env dir req.files ev hev
  · rw [if_neg h] at hev
    simp at hev

/-- A trace with no `q`-events satisfies `allBefore p q` trivially. -/
theorem allBefore_of_no_q (p q : Event → Bool) (S : List Event)
    (hS : ∀ ev ∈ S, q ev = false) : allBefore p q S = true := by
  induction S with
  | nil => rfl
  | cons s ss ih =>
    have hq : q s = false := hS s (by simp)
    simp only [allBefore, hq, Bool.false_eq_true, if_false, ite_false,
      Bool.true_and]
    exact ih (fun ev hev => hS ev (List.mem_cons_of_mem _ hev))

/-- A trace with no `p`-events satisfies `allBefore p q` trivially. -/
theorem allBefore_of_no_p (p q : Event → Bool) (S : List Event)
    (hS : ∀ ev ∈ S, p ev = false) : allBefore p q S = true := by
  induction S with
  | nil => rfl
  | cons s ss ih =>
    have hall : ss.all (fun x => ! p x) = true := by
      rw [List.all_eq_true]
      intro x hx
      simp [hS x (List.mem_cons_of_mem _ hx)]
    have hrest : allBefore p q ss = true :=
      ih (fun ev hev => hS ev (List.mem_cons_of_mem _ hev))
    by_cases hq : q s = true <;> simp [allBefore, hq, hall, hrest]

/-- If the first block has no `q`-events and the second no `p`-events, then
every `p`-event of the concatenation precedes every `q`-event. -/
theorem allBefore_append (p q : Event → Bool) (W S : List Event)
    (hW : ∀ ev ∈ W, q ev = false) (hS : ∀ ev ∈ S, p ev = false) :
    allBefore p q (W ++ S) = true := by
  induction W with
  | nil => simpa using allBefore_of_no_p p q S hS
  | cons w ws ih =>
    have hq : q w = false := hW w (by simp)
    simp only [List.cons_append, allBefore, hq, Bool.false_eq_true,
      if_false, ite_false, Bool.true_and]
    exact ih (fun ev hev => hW ev (List.mem_cons_of_mem _ hev))

/-- Claim C7 (amended): in every pipeline trace, every request-file write
event precedes every box-file copy event — the request files are written
by `Exec` before any step runs, and each step copies its box files (after
that) just before its invocation. -/
theorem exec_request_files_before_box_files (e : Docker) (env : Env)
    (req : Request) :
    allBefore Event.isWrite Event.isCopy (e.Exec env req).2 = true := by
  unfold Docker.Exec
  cases hm : env.mkTemp with
  | error msg => rfl
  | ok dir =>
    unfold Docker.execInDir
    rcases hw : writePhase e env dir req with ⟨w1, w2⟩
    have hWw : ∀ ev ∈ w2, Event.isWrite ev = true := by
      intro ev hev
      exact writePhase_events_write e env dir req ev (by rw [hw]; exact hev)
    have hWq : ∀ ev ∈ w2, Event.isCopy ev = false := fun ev hev =>
      Event.not_copy_of_write ev (hWw ev hev)
    rcases w1 with _ | msg
    · rcases hb : beforePhase e env req dir with ⟨b1, evs1⟩
      have hB1 : ∀ ev ∈ evs1, Event.isWrite ev = false := by
        intro ev hev
        exact beforePhase_events_not_write e env req dir ev
          (by rw [hb]; exact hev)
      rcases b1 with _ | failOut
      · simp only [hw, hb]
        rw [List.append_assoc, List.append_assoc]
        apply allBefore_append _ _ w2 _ hWq
        intro ev hev
        rcases List.mem_append.1 hev with hev2 | hev2
        · exact hB1 ev hev2
        · rcases List.mem_append.1 hev2 with hev3 | hev3
          · exact runSteps_events_not_write e env req dir ev hev3
          · exact withCleanup_events_not_write e env req dir _ ev hev3
      · simp only [hw, hb]
        exact allBefore_append _ _ w2 evs1 hWq hB1
    · simp only [hw]
      exact allBefore_of_no_q Event.isWrite Event.isCopy w2 hWq

/-- A box carrying one template-file glob pattern. -/
def boxC7 : Box :=
  { image := "codapi/python", runtime := "runc", cpu := 1, memory := 64,
    network := "none", nproc := 64, writable := false, storage := "",
    volume := "%s:/sandbox:ro", tmpfs := [], capAdd := [], capDrop := ["all"],
    ulimit := [], versions := ["1.0", "2.0"], files := ["templates/*"] }

/-- An engine whose box stages template files by glob. -/
def engC7 : Docker :=
  { cfg := ⟨fun _ => boxC7⟩,
    cmd := { entry := "main.py", before := none, steps := [stepRunW],
             after := none } }

/-- Counterexample to Claim C7 as stated: on a concrete pipeline whose box
declares a glob pattern, the trace writes the request file first and copies
the box template files only afterwards (inside the step), so the box files
are not staged before the request files. -/
theorem exec_box_files_order_cx :
    (engC7.Exec envOk reqW).2 =
      [Event.writeFile (joinPath "/tmp/d" "main.py") "print(1)",
       Event.copyPattern "templates/*" "/tmp/d",
       Event.invoke (invocation engC7 boxC7 stepRunW reqW "/tmp/d"
         reqW.files)]
    ∧ allBefore Event.isCopy Event.isWrite (engC7.Exec envOk reqW).2 =
        false := by
  exact ⟨by decide, by decide⟩

/-- When every write succeeds, the staging loop writes exactly one file per
entry, in iteration order, under the entry's effective name. -/
theorem writeFilesLoop_all_ok (e : Docker) (env : Env) (dir : String)
    (files : Files) (hok : ∀ p c, env.writeRes p c = none) :
    writeFilesLoop e env dir files =
      (none,
        files.map (fun f => Event.writeFile (joinPath dir (effName e f.1)) f.2)) := by
  induction files with
  | nil => simp [writeFilesLoop]
  | cons f fs ih => simp [writeFilesLoop, hok, ih]

/-- The paths of a list of write events built from entries. -/
theorem pathsOf_writeEvents (l : List (String × String))
    (g : String → String) :
    pathsOf (l.map (fun f => Event.writeFile (g f.1) f.2)) =
      l.map (fun f => g f.1) := by
  induction l with
  | nil => rfl
  | cons f fs ih =>
    unfold pathsOf at ih ⊢
    simp [Event.path?, ih]

/-- Joining distinct names onto the same directory yields distinct paths. -/
theorem joinPath_inj (dir : String) : Function.Injective (joinPath dir) := by
  intro a b h
  unfold joinPath at h
  have h2 := congrArg String.data h
  rw [String.data_append, String.data_append, String.data_append,
    String.data_append] at h2
  exact String.ext (List.append_cancel_left h2)

/-- Claim C8 (amended): an entry with the sentinel empty name is staged
under the command's configured entry-point filename, and the staged paths
are pairwise distinct provided the effective names (after the sentinel
substitution) are pairwise distinct — which can fail only when a non-empty
name equals the entry-point filename while an empty-named entry is
present. -/
theorem writeFiles_entry_sentinel_distinct_paths (e : Docker) (env : Env)
    (dir : String) (files : Files) (content : String)
    (hok : ∀ p c, env.writeRes p c = none)
    (hmem : ("", content) ∈ files)
    (hnodup : (files.map (fun f => effName e f.1)).Nodup) :
    Event.writeFile (joinPath dir e.cmd.entry) content
      ∈ (e.writeFiles env dir files).2
    ∧ (pathsOf (e.writeFiles env dir files).2).Nodup := by
  have hwf : (e.writeFiles env dir files).2 =
      files.map (fun f => Event.writeFile (joinPath dir (effName e f.1)) f.2) := by
    rw [Docker.writeFiles, writeFilesLoop_all_ok e env dir files hok]
  constructor
  · rw [hwf]
    have := List.mem_map_of_mem
      (fun f : String × String =>
        Event.writeFile (joinPath dir (effName e f.1)) f.2) hmem
    simpa [effName] using this
  · rw [hwf, pathsOf_writeEvents files (fun n => joinPath dir (effName e n))]
    have hrw : files.map (fun f => joinPath dir (effName e f.1)) =
        (files.map (fun f => effName e f.1)).map (joinPath dir) := by
      rw [List.map_map]
      rfl
    rw [hrw]
    exact hnodup.map (joinPath_inj dir)

/-- Witness for C8 (amended): a two-entry collection with the sentinel and
a distinct named file stages the sentinel under the entry-point filename
and produces distinct paths. -/
theorem writeFiles_entry_sentinel_distinct_paths_witness :
    Event.writeFile (joinPath "/tmp/d" engW.cmd.entry) "print(1)"
      ∈ (engW.writeFiles envOk "/tmp/d" [("", "print(1)"), ("util.py", "u")]).2
    ∧ (pathsOf
        (engW.writeFiles envOk "/tmp/d" [("", "print(1)"), ("util.py", "u")]).2).Nodup :=
  writeFiles_entry_sentinel_distinct_paths engW envOk "/tmp/d"
    [("", "print(1)"), ("util.py", "u")] "print(1)" (fun _ _ => rfl)
    (by decide) (by decide)

/-- A legal file collection (unique names, one sentinel entry) whose second
entry's name equals the command's entry-point filename. -/
def filesC8 : Files := [("", "a"), ("main.py", "b")]

/-- Counterexample to Claim C8 as stated: under the engine whose entry
point is `main.py`, the collection `[("", "a"), ("main.py", "b")]` satisfies
the `Files` invariant (distinct names, at most one empty), yet both entries
are staged under the same path, so "no two files are ever staged under the
same path" fails. -/
theorem writeFiles_same_path_cx :
    (filesC8.map Prod.fst).Nodup
    ∧ filesC8.countP (fun f => f.1 == "") ≤ 1
    ∧ pathsOf (engW.writeFiles envOk "/tmp/d" filesC8).2 =
        ["/tmp/d" ++ "/" ++ "main.py", "/tmp/d" ++ "/" ++ "main.py"]
    ∧ ¬ (pathsOf (engW.writeFiles envOk "/tmp/d" filesC8).2).Nodup := by
  refine ⟨by decide, by decide, by decide, by decide⟩

/-- The stdin stream is the concatenation of the file contents in
iteration order (stated on the underlying character lists). -/
theorem filesReader_data_flat (files : Files) (acc : String) :
    (files.foldl (fun a f => a ++ f.2) acc).data =
      acc.data ++ (files.map (fun f => f.2.data)).flatten := by
  induction files generalizing acc with
  | nil => simp
  | cons f fs ih =>
    simp only [List.foldl_cons, List.map_cons, List.flatten_cons]
    rw [ih (acc ++ f.2)]
    simp [String.data_append, List.append_assoc]

/-- Claim C9: the iteration order of the file collection is preserved both
as the order of the staging write events and as the concatenation order of
the synthesized stdin stream handed to the invoker for stdin-delivery
steps. -/
theorem writeFiles_order_and_stdin_concat (e : Docker) (env : Env)
    (dir : String) (files : Files) (box : Box) (step : Step) (req : Request)
    (hok : ∀ p c, env.writeRes p c = none)
    (hstdin : step.stdin = true) :
    (e.writeFiles env dir files).2 =
      files.map (fun f => Event.writeFile (joinPath dir (effName e f.1)) f.2)
    ∧ (invocation e box step req dir files).stdin = some (filesReader files)
    ∧ (filesReader files).data = (files.map (fun f => f.2.data)).flatten := by
  refine ⟨?_, ?_, ?_⟩
  · rw [Docker.writeFiles, writeFilesLoop_all_ok e env dir files hok]
  · simp [invocation, hstdin]
  · simpa [filesReader] using filesReader_data_flat files ""

/-- Witness for C9: a concrete two-file collection keeps its order in the
write events and concatenates as `"AB"` on stdin. -/
theorem writeFiles_order_and_stdin_concat_witness :
    (engW.writeFiles envOk "/tmp/d" [("a.py", "A"), ("b.py", "B")]).2 =
      [("a.py", "A"), ("b.py", "B")].map
        (fun f => Event.writeFile (joinPath "/tmp/d" (effName engW f.1)) f.2)
    ∧ (invocation engW boxW stepExecW reqW "/tmp/d"
        [("a.py", "A"), ("b.py", "B")]).stdin =
        some (filesReader [("a.py", "A"), ("b.py", "B")])
    ∧ (filesReader [("a.py", "A"), ("b.py", "B")]).data =
        ([("a.py", "A"), ("b.py", "B")].map
          (fun f : String × String => f.2.data)).flatten :=
  writeFiles_order_and_stdin_concat engW envOk "/tmp/d"
    [("a.py", "A"), ("b.py", "B")] boxW stepExecW reqW (fun _ _ => rfl) rfl

end Codapi
